import Mathlib

/-!
Shallow embedding of the Clue-Less game engine (`src/clueless/models.py`).

Django model instances are embedded as Lean structures; the per-game tables
(`Player.objects.filter(currentGame = self)`, `DetectiveSheet.objects.filter(game = self)`,
`Space.objects` for the game board, the `Action` rows of a `Turn`) are embedded as lists
stored on the `Game` / `Turn` structures, in row-insertion order.  Django `get` queries
(which demand exactly one matching row and raise otherwise) are embedded through
`getUnique`, returning `none` when zero or several rows match; Python exceptions in
general are embedded as `none` / `Except.error` results.  Randomness (`random.shuffle`,
`CaseFile.createRandom`) is embedded by passing the randomly produced value as an
explicit argument.
-/

namespace Clueless

/-- Status enum (`STATUS_CHOICES` in the source). -/
def NOT_STARTED : Nat := 0

/-- Status value `STARTED = 1`. -/
def STARTED : Nat := 1

/-- Status value `COMPLETE = 2`. -/
def COMPLETE : Nat := 2

/-- Game result `LOST = -1`. -/
def LOST : Int := -1

/-- Game result `NEITHER = 0`. -/
def NEITHER : Int := 0

/-- Game result `WON = 1`. -/
def WON : Int := 1

/-- Django `Model.objects.get(...)`: returns the row when exactly one row matches the
filter, and raises (`none` here) when zero or several rows match. -/
def getUnique {α : Type} (l : List α) (p : α → Bool) : Option α :=
  match l.filter p with
  | [x] => some x
  | _ => none

/-- A `Space` row: X/Y position and the `SpaceCollection` it belongs to (its
`spaceCollector` foreign key, embedded as the collection's primary key).  The
directional neighbour links are not needed by any claim and are omitted. -/
structure Space where
  id : Nat
  posX : Int
  posY : Int
  spaceCollector : Nat
deriving DecidableEq, Repr

/-- A `Card` row: primary key `card_id` and a display `name`. -/
structure Card where
  card_id : Nat
  name : String
deriving DecidableEq, Repr

/-- Source `Card.compare`: equality of the two cards' names. -/
def Card.compare (c otherCard : Card) : Bool :=
  c.name == otherCard.name

/-- A `Character` row: a `Card` plus a default starting space and a colour. -/
structure Character where
  card : Card
  defaultSpace : Space
  characterColor : String
deriving DecidableEq, Repr

/-- A `Weapon` row: just a `Card`. -/
structure Weapon where
  card : Card
deriving DecidableEq, Repr

/-- A `Room` row: both a `SpaceCollection` (with primary key `id`, the key that
`Space.spaceCollector` points at) and a `Card`. -/
structure Room where
  id : Nat
  card : Card
deriving DecidableEq, Repr

/-- A `WhoWhatWhere` row (also the shape of a `CaseFile`). -/
structure WhoWhatWhere where
  character : Character
  weapon : Weapon
  room : Room
deriving DecidableEq, Repr

/-- Source `WhoWhatWhere.compare`: room, character and weapon compared with
`Card.compare` (name equality), conjoined in source order. -/
def WhoWhatWhere.compare (w otherWhoWhatWhere : WhoWhatWhere) : Bool :=
  let roomEqual := w.room.card.compare otherWhoWhatWhere.room.card
  let charEqual := w.character.card.compare otherWhoWhatWhere.character.card
  let weaponEqual := w.weapon.card.compare otherWhoWhatWhere.weapon.card
  roomEqual && charEqual && weaponEqual

/-- A `Player` row.  `user` is the backing user's id (`none` for non-user players);
`username` is that user's display name, read by `gameStateJSON`. -/
structure Player where
  id : Nat
  user : Option Nat
  username : String
  nonUserPlayer : Bool
  currentSpace : Space
  character : Character
  gameResult : Int
deriving DecidableEq, Repr

/-- Source `Player.compare`: equality of the two players' users. -/
def Player.compare (p otherPlayer : Player) : Bool :=
  p.user == otherPlayer.user

/-- A `SheetItem` row of a detective sheet. -/
structure SheetItem where
  card : Card
  checked : Bool
  initiallyDealt : Bool
  manuallyChecked : Bool
deriving DecidableEq, Repr

/-- A `DetectiveSheet` row together with its `SheetItem` rows. -/
structure DetectiveSheet where
  playerId : Nat
  items : List SheetItem
deriving DecidableEq, Repr

/-- Source `DetectiveSheet.addDefaultSheets`: one unchecked, undealt, unmarked
`SheetItem` per card of the registry. -/
def DetectiveSheet.addDefaultSheets (allCards : List Card) : List SheetItem :=
  allCards.map (fun c => { card := c, checked := false, initiallyDealt := false, manuallyChecked := false })

/-- Source `DetectiveSheet.makeNote`: overwrite the three flags of the sheet item
whose card matches the given card (Django matches the `card` foreign key by primary
key, i.e. by `card_id`; `SheetItem.objects.get` finds the unique such row). -/
def DetectiveSheet.makeNote (ds : DetectiveSheet) (card : Card)
    (checked initiallyDealt manuallyChecked : Bool) : DetectiveSheet :=
  { ds with
    items := ds.items.map (fun si =>
      if si.card.card_id = card.card_id then
        { si with checked := checked, initiallyDealt := initiallyDealt,
                  manuallyChecked := manuallyChecked }
      else si) }

/-- Look up the sheet item for a card id (`SheetItem.objects.get(detectiveSheet = self,
card = card)`, first match). -/
def getItem (items : List SheetItem) (cid : Nat) : Option SheetItem :=
  items.find? (fun si => si.card.card_id == cid)

/-- The `Action` subclasses, as a tagged union: `Move(fromSpace, toSpace)`,
`Suggestion(whoWhatWhere)`, `Accusation(whoWhatWhere)`.  `otherAction` stands for an
`Action` instance of any other class (in particular the abstract base class `Action`
itself, whose `validate`/`performAction` raise `NotImplementedError`). -/
inductive ActionData where
  | move (fromSpace toSpace : Space)
  | suggestion (whoWhatWhere : WhoWhatWhere)
  | accusation (whoWhatWhere : WhoWhatWhere)
  | otherAction
deriving DecidableEq, Repr

/-- Tag test: is this action row a `Suggestion`? -/
def ActionData.isSuggestionA : ActionData → Bool
  | .suggestion _ => true
  | _ => false

/-- Tag test: is this action row an `Accusation`? -/
def ActionData.isAccusationA : ActionData → Bool
  | .accusation _ => true
  | _ => false

/-- A `Turn` row together with the `Action` rows recorded against it, in creation
order.  The `game` foreign key is represented by passing the `Game` alongside. -/
structure Turn where
  player : Player
  actions : List ActionData
deriving DecidableEq, Repr

/-- A `Game` row together with its per-game tables: `players` embeds
`Player.objects.filter(currentGame = self)` in join order, `sheets` embeds
`DetectiveSheet.objects.filter(game = self)`, and `spaces` embeds the board's
`Space` table. -/
structure Game where
  caseFile : WhoWhatWhere
  status : Nat
  hostPlayer : Player
  name : String
  currentSequence : Int
  currentTurn : Option Turn
  players : List Player
  sheets : List DetectiveSheet
  spaces : List Space
deriving DecidableEq, Repr

/-- Source `Game.registerGameUpdate`: increment the sequence counter (the
last-update timestamp is not modelled). -/
def Game.registerGameUpdate (g : Game) : Game :=
  { g with currentSequence := g.currentSequence + 1 }

/-- Source `Game.isAccusationCorrect`. -/
def Game.isAccusationCorrect (g : Game) (accusationWWW : WhoWhatWhere) : Bool :=
  g.caseFile.compare accusationWWW

/-- Source `Game.endGame`: the winner's row gets `WON`, every other player row of the
game gets `LOST`, status becomes `2`, then `registerGameUpdate`. -/
def Game.endGame (g : Game) (winningPlayer : Player) : Game :=
  Game.registerGameUpdate
    { g with
      players := g.players.map (fun p =>
        if p.id = winningPlayer.id then { p with gameResult := WON }
        else { p with gameResult := LOST }),
      status := 2 }

/-- Source `Game.loseGame`: only the losing player's row gets `LOST`, then
`registerGameUpdate` (status untouched). -/
def Game.loseGame (g : Game) (losingPlayer : Player) : Game :=
  Game.registerGameUpdate
    { g with
      players := g.players.map (fun p =>
        if p.id = losingPlayer.id then { p with gameResult := LOST } else p) }

/-- Source `Move.validate`: true when the destination differs by exactly +2 or -2 on X,
or by exactly +2 or -2 on Y (each disjunct checked independently of the other axis). -/
def Move.validate (fromSpace toSpace : Space) : Bool :=
  (fromSpace.posX + 2 == toSpace.posX) || (fromSpace.posX - 2 == toSpace.posX) ||
    (fromSpace.posY + 2 == toSpace.posY) || (fromSpace.posY - 2 == toSpace.posY)

/-- Source `Move.performAction`: the body is `pass` (a stub flagged `TODO: implement`),
so the game state is returned unchanged. -/
def Move.performAction (g : Game) : Game :=
  g

/-- Source `Suggestion.validate`: the suggested room's `SpaceCollection` id must equal
the id of the collection holding the suggesting player's current space. -/
def Suggestion.validate (www : WhoWhatWhere) (turnPlayer : Player) : Bool :=
  www.room.id == turnPlayer.currentSpace.spaceCollector

/-- Source `Suggestion.performAction`: fetch the unique player of this game holding the
suggested character (`Player.objects.get`, matching the character foreign key by
`card_id`) and the unique space of the suggested room (`Space.objects.get`), then move
that player onto that space. -/
def Suggestion.performAction (g : Game) (www : WhoWhatWhere) : Option Game := do
  let accusedPlayer ← getUnique g.players
    (fun p => p.character.card.card_id == www.character.card.card_id)
  let accusedSpace ← getUnique g.spaces (fun s => s.spaceCollector == www.room.id)
  some { g with
         players := g.players.map (fun p =>
           if p.id = accusedPlayer.id then { p with currentSpace := accusedSpace } else p) }

/-- Source `Accusation.validate`: always true. -/
def Accusation.validate : Bool :=
  true

/-- Source `Accusation.performAction`: `endGame` on a correct accusation, `loseGame`
otherwise, applied to the turn's player. -/
def Accusation.performAction (g : Game) (turnPlayer : Player) (www : WhoWhatWhere) : Game :=
  if g.isAccusationCorrect www then g.endGame turnPlayer else g.loseGame turnPlayer

/-- Polymorphic `Action.validate` dispatch.  `none` embeds the `NotImplementedError`
raised by the abstract base class. -/
def Action.validate (t : Turn) : ActionData → Option Bool
  | .move fromSpace toSpace => some (Move.validate fromSpace toSpace)
  | .suggestion www => some (Suggestion.validate www t.player)
  | .accusation _ => some Accusation.validate
  | .otherAction => none

/-- Polymorphic `Action.performAction` dispatch.  `none` embeds an uncaught Python
exception (`NotImplementedError` for the base class, `DoesNotExist` /
`MultipleObjectsReturned` escaping from `Suggestion.performAction`). -/
def Action.performAction (g : Game) (t : Turn) : ActionData → Option Game
  | .move _ _ => some (Move.performAction g)
  | .suggestion www => Suggestion.performAction g www
  | .accusation www => some (Accusation.performAction g t.player www)
  | .otherAction => none

/-- Source `Turn.__validate_action`.  The counts are database counts over the turn's
recorded `Action` rows; when `takeAction` is reached through the engine's own entry
points the attempted action has already been saved against the turn
(`Suggestion.createSuggestion` / `Accusation.createAccusation` save before
`takeAction` runs), so `t.actions` includes the attempted action itself — which is why
the source compares the counts against `1` rather than `0`. -/
def Turn.validate_action (t : Turn) (action : ActionData) : Bool :=
  match action with
  | .accusation _ =>
      if (t.actions.countP (fun a => a.isAccusationA)) > 1 then false else true
  | .suggestion _ =>
      if (t.actions.countP (fun a => a.isSuggestionA)) > 1 then false
      else if (t.actions.countP (fun a => a.isAccusationA)) > 0 then false
      else true
  | .move _ _ =>
      if t.actions.length > 1 then false else true
  | .otherAction => false

/-- Source `Turn.takeAction`: the ordering pre-check, then the action's own
`validate`, then `performAction`.  The result pairs the returned message
(`none` on success, `some "Unable to perform action"` on rejection) with the
resulting game state; the outer `Option` embeds uncaught exceptions. -/
def Turn.takeAction (g : Game) (t : Turn) (action : ActionData) :
    Option (Option String × Game) :=
  if ¬ t.validate_action action then some (some "Unable to perform action", g)
  else
    match Action.validate t action with
    | none => none
    | some b =>
        if b then (Action.performAction g t action).map (fun g2 => (none, g2))
        else some (some "Unable to perform action", g)

/-- Source `Turn.endTurn`: find the first player row whose `compare` (user equality)
matches the current turn's player, take the next player cyclically, and install a fresh
`Turn` for that player as the game's `currentTurn`.  No `registerGameUpdate` call.
`none` embeds the exceptions Python would raise when there is no current turn or no
matching player. -/
def Turn.endTurn (g : Game) : Option Game :=
  match g.currentTurn with
  | none => none
  | some ct =>
      match g.players.findIdx? (fun p => p.compare ct.player) with
      | none => none
      | some i =>
          match g.players[(i + 1) % g.players.length]? with
          | none => none
          | some nextPlayer =>
              some { g with currentTurn := some { player := nextPlayer, actions := [] } }

/-- Replace the element at index `n` (in-place mutation of one list cell, as the deal
loop's `detectiveSheets[dsIndex].makeNote(...)` does). -/
def modifyAt {α : Type} : List α → Nat → (α → α) → List α
  | [], _, _ => []
  | x :: xs, 0, f => f x :: xs
  | x :: xs, n + 1, f => x :: modifyAt xs n f

/-- The card-dealing loop of `Game.startGame`:
`for i in range(0, len(cardList)): detectiveSheets[i % len(detectiveSheets)].makeNote(cardList[i], True, True)`,
with `i` threaded explicitly.  (With no sheets and a nonempty card list Python would
raise `ZeroDivisionError`; theorems about the deal therefore assume a sheet exists.) -/
def dealLoop : List DetectiveSheet → List Card → Nat → List DetectiveSheet
  | detectiveSheets, [], _ => detectiveSheets
  | detectiveSheets, c :: rest, i =>
      dealLoop
        (modifyAt detectiveSheets (i % detectiveSheets.length)
          (fun ds => ds.makeNote c true true false))
        rest (i + 1)

/-- The sub-sequence of loop cards that the deal loop hands to sheet `j`: the cards at
loop indices `i` with `i % numSheets = j`, in loop order. -/
def dealtTo (numSheets : Nat) : List Card → Nat → Nat → List Card
  | [], _, _ => []
  | c :: rest, i, j => (if i % numSheets = j then [c] else []) ++ dealtTo numSheets rest (i + 1) j

/-- The `Card.objects.exclude(...).exclude(...).exclude(...)` query of `startGame`:
every registry card whose `card_id` is none of the case file's three `card_id`s. -/
def nonCaseFileCards (allCards : List Card) (cf : WhoWhatWhere) : List Card :=
  allCards.filter (fun c =>
    !(c.card_id == cf.character.card.card_id) && !(c.card_id == cf.room.card.card_id) &&
      !(c.card_id == cf.weapon.card.card_id))

/-- Source `Game.unusedCharacters`: registry characters whose `card_id` no player of
this game uses. -/
def Game.unusedCharacters (g : Game) (allCharacters : List Character) : List Character :=
  allCharacters.filter (fun c =>
    !(g.players.any (fun p => p.character.card.card_id == c.card.card_id)))

/-- Source `Game.isUserInGame`: `Player.objects.get(currentGame__id = self.id,
user__id = user.id)` under a bare `except` returning `False` — true exactly when the
user is present and exactly one player row matches (a `None` user raises inside the
`try` and also yields `False`). -/
def Game.isUserInGame (g : Game) (user : Option Nat) : Bool :=
  match user with
  | none => false
  | some uid => (getUnique g.players (fun p => p.user == some uid)).isSome

/-- Source `Game.isCharacterInGame`: some player row of this game uses the character's
`card_id`. -/
def Game.isCharacterInGame (g : Game) (character : Character) : Bool :=
  decide (0 < g.players.countP (fun p => p.character.card.card_id == character.card.card_id))

/-- Source `Game.initializeGame`: set the host, reset the status to `NOT_STARTED`,
install the (randomly created, here explicitly passed) case file, and
`registerGameUpdate`.  The board assignment is the identity here because the board's
spaces are already carried by the game. -/
def Game.initializeGame (g : Game) (playerHost : Player) (randCaseFile : WhoWhatWhere) : Game :=
  Game.registerGameUpdate
    { g with hostPlayer := playerHost, status := NOT_STARTED, caseFile := randCaseFile }

/-- Source `Game.addPlayer`: reject a duplicate user or character, otherwise attach
the player, create their detective sheet with `addDefaultSheets`, and
`registerGameUpdate`. -/
def Game.addPlayer (g : Game) (player : Player) (allCards : List Card) : Except String Game :=
  if g.isUserInGame player.user then .error "User is already a player in this game"
  else if g.isCharacterInGame player.character then .error "Character is already in use"
  else
    .ok (Game.registerGameUpdate
      { g with
        players := g.players ++ [player],
        sheets := g.sheets ++
          [{ playerId := player.id, items := DetectiveSheet.addDefaultSheets allCards }] })

/-- Source `Game.startGame`: the three guard errors, then status `STARTED`, the card
deal over all existing detective sheets, creation of a non-user player at the default
space of every unused character, installation of the current turn for the requesting
user's player (`Player.objects.get(user = user, currentGame = self)`), and
`registerGameUpdate`.  `shuffledCards` is the shuffled non-case-file card list
(`random.shuffle(cardList)` passed explicitly). -/
def Game.startGame (g : Game) (user : Nat) (shuffledCards : List Card)
    (allCharacters : List Character) : Except String Game :=
  if g.status ≠ 0 then .error "Game already started"
  else if g.players.length < 2 then .error "Game must have at least 2 players"
  else if g.hostPlayer.user ≠ some user then .error "Game can only be started by host"
  else
    let detectiveSheets := dealLoop g.sheets shuffledCards 0
    let nonUserPlayers := (g.unusedCharacters allCharacters).map (fun c =>
      ({ id := 0, user := none, username := "", nonUserPlayer := true,
         currentSpace := c.defaultSpace, character := c, gameResult := NEITHER } : Player))
    match getUnique g.players (fun p => p.user == some user) with
    | none => .error "Player matching query does not exist"
    | some currentPlayer =>
        .ok (Game.registerGameUpdate
          { g with
            status := STARTED,
            sheets := detectiveSheets,
            players := g.players ++ nonUserPlayers,
            currentTurn := some { player := currentPlayer, actions := [] } })

/-- One entry of the `playerstates` array of `gameStateJSON` (the nested `character`
and `currentSpace` dictionaries are flattened). -/
structure PlayerStateJSON where
  player_id : Nat
  username : String
  character_id : Nat
  character_name : String
  character_color : String
  space_id : Nat
  posX : Int
  posY : Int
deriving DecidableEq, Repr

/-- The dictionary built by `Game.gameStateJSON`. -/
structure GameStateJSON where
  game_sequence : Int
  isHostPlayer : Bool
  hostplayer_id : Nat
  hostplayer_username : String
  status : Nat
  playerstates : List PlayerStateJSON
deriving DecidableEq, Repr

/-- Source `Game.gameStateJSON`: sequence, host identity (`self.hostPlayer == player`
is Django primary-key equality), status, and the public per-player states. -/
def Game.gameStateJSON (g : Game) (player : Player) : GameStateJSON :=
  { game_sequence := g.currentSequence,
    isHostPlayer := g.hostPlayer.id == player.id,
    hostplayer_id := g.hostPlayer.id,
    hostplayer_username := g.hostPlayer.username,
    status := g.status,
    playerstates := g.players.map (fun p =>
      { player_id := p.id,
        username := if p.nonUserPlayer then "not a user" else p.username,
        character_id := p.character.card.card_id,
        character_name := p.character.card.name,
        character_color := p.character.characterColor,
        space_id := p.currentSpace.id,
        posX := p.currentSpace.posX,
        posY := p.currentSpace.posY }) }

/-- The engine's mutating entry points, as one tagged union (used to state the
sequence-counter claims uniformly). -/
inductive MutOp where
  | init (host : Player) (cf : WhoWhatWhere)
  | join (p : Player) (allCards : List Card)
  | start (user : Nat) (shuffledCards : List Card) (allCharacters : List Character)
  | act (t : Turn) (a : ActionData)
  | turnEnd
deriving DecidableEq, Repr

/-- Run one mutating operation; `some` is a completed run, `none` an operation that
raised or returned an engine error before committing. -/
def applyOp (g : Game) : MutOp → Option Game
  | .init host cf => some (g.initializeGame host cf)
  | .join p allCards => (g.addPlayer p allCards).toOption
  | .start user shuffledCards allCharacters => (g.startGame user shuffledCards allCharacters).toOption
  | .act t a => (Turn.takeAction g t a).map (fun r => r.2)
  | .turnEnd => Turn.endTurn g

/-! Concrete sample rows, used by witnesses and counterexamples. -/

/-- Sample space at (0,0), in collection 100. -/
def spA : Space := { id := 1, posX := 0, posY := 0, spaceCollector := 100 }

/-- Sample space at (2,0), in collection 101. -/
def spB : Space := { id := 2, posX := 2, posY := 0, spaceCollector := 101 }

/-- Sample space at (2,2), in collection 102. -/
def spC : Space := { id := 3, posX := 2, posY := 2, spaceCollector := 102 }

/-- Sample character card. -/
def cardGreen : Card := { card_id := 1, name := "Mr Green" }

/-- Sample character card. -/
def cardScarlet : Card := { card_id := 2, name := "Miss Scarlet" }

/-- Sample weapon card. -/
def cardRope : Card := { card_id := 3, name := "Rope" }

/-- Sample weapon card. -/
def cardPipe : Card := { card_id := 4, name := "Lead Pipe" }

/-- Sample room card (room collection 100). -/
def cardHall : Card := { card_id := 5, name := "Hall" }

/-- Sample room card (room collection 101). -/
def cardStudy : Card := { card_id := 6, name := "Study" }

/-- Sample character. -/
def chGreen : Character := { card := cardGreen, defaultSpace := spA, characterColor := "green" }

/-- Sample character. -/
def chScarlet : Character := { card := cardScarlet, defaultSpace := spB, characterColor := "red" }

/-- A second character row that shares the name of `chGreen` but has a different
`card_id`. -/
def chGreenClone : Character :=
  { card := { card_id := 7, name := "Mr Green" }, defaultSpace := spA, characterColor := "darkgreen" }

/-- Sample weapon. -/
def wpRope : Weapon := { card := cardRope }

/-- Sample weapon. -/
def wpPipe : Weapon := { card := cardPipe }

/-- Sample room (collection 100, where `spA` sits). -/
def rmHall : Room := { id := 100, card := cardHall }

/-- Sample room (collection 101, where `spB` sits). -/
def rmStudy : Room := { id := 101, card := cardStudy }

/-- The six-card sample registry. -/
def allSampleCards : List Card :=
  [cardGreen, cardScarlet, cardRope, cardPipe, cardHall, cardStudy]

/-- Sample triple (also used as the sample case file). -/
def wwwGreen : WhoWhatWhere := { character := chGreen, weapon := wpRope, room := rmHall }

/-- Sample triple that differs from `wwwGreen` only in the character row, whose card
shares the name of `chGreen`'s card. -/
def wwwGreenClone : WhoWhatWhere := { character := chGreenClone, weapon := wpRope, room := rmHall }

/-- Sample triple naming `chScarlet`, `wpPipe` and `rmStudy`. -/
def wwwScarlet : WhoWhatWhere := { character := chScarlet, weapon := wpPipe, room := rmStudy }

/-- Sample host player (user 10), sitting at `spA`, playing `chGreen`. -/
def pHost : Player :=
  { id := 1, user := some 10, username := "alice", nonUserPlayer := false,
    currentSpace := spA, character := chGreen, gameResult := 0 }

/-- Sample second player (user 11), sitting at `spB`, playing `chScarlet`. -/
def pGuest : Player :=
  { id := 2, user := some 11, username := "bob", nonUserPlayer := false,
    currentSpace := spB, character := chScarlet, gameResult := 0 }

/-- A started two-player sample game at sequence 5. -/
def sampleGame : Game :=
  { caseFile := wwwGreen, status := 1, hostPlayer := pHost, name := "sample",
    currentSequence := 5, currentTurn := some { player := pHost, actions := [] },
    players := [pHost, pGuest],
    sheets := [{ playerId := 1, items := DetectiveSheet.addDefaultSheets allSampleCards },
               { playerId := 2, items := DetectiveSheet.addDefaultSheets allSampleCards }],
    spaces := [spA, spB, spC] }

/-- C3: evaluation of `Move.validate` at the spec's three sample moves.  The first two
agree with the spec — `(0,0) → (2,0)` validates true, `(0,0) → (1,0)` validates
false — but the diagonal move `(0,0) → (2,2)` validates TRUE, because the source tests
each axis displacement independently and never requires the other axis to be
unchanged, contradicting the claim that it validates false. -/
theorem move_validate_diagonal_eval :
    Move.validate spA spB = true ∧
    Move.validate spA { id := 9, posX := 1, posY := 0, spaceCollector := 100 } = false ∧
    Move.validate spA spC = true := by
  decide

/-- C7: an executed `Move` does not move anyone.  On the sample game, a `Move` from
`spA` (where the host stands) to `spB` passes the pre-check and `Move.validate`, and
`takeAction` reports success, yet the resulting game state is the unchanged
`sampleGame` — `Move.performAction` is a `pass` stub — so the mover's `currentSpace`
is still `spA`, not the destination `spB` required by the claim. -/
theorem move_performAction_noop_eval :
    Turn.takeAction sampleGame { player := pHost, actions := [ActionData.move spA spB] }
        (ActionData.move spA spB) = some (none, sampleGame) ∧
    pHost.currentSpace = spA ∧ spA ≠ spB := by
  refine ⟨by decide, by decide, by decide⟩

/-- C8 counterexample: `wwwGreen` and `wwwGreenClone` differ in their character field
(two distinct character rows, `card_id` 1 versus 7), yet `compare` returns true,
because `Card.compare` tests name equality, not identity.  This refutes the claim that
`compare` returns false whenever one of the three fields differs. -/
theorem compare_true_despite_distinct_fields :
    wwwGreen.character ≠ wwwGreenClone.character ∧
    wwwGreen.compare wwwGreenClone = true := by
  decide

/-- C8 amended: `WhoWhatWhere.compare` is reflexive, and it returns true exactly when
the character, weapon and room cards of the two triples have pairwise equal names
(so it returns false whenever a field differs in name, but can return true for
distinct fields sharing a name). -/
theorem whoWhatWhere_compare_reflexive_and_by_name :
    (∀ t : WhoWhatWhere, t.compare t = true) ∧
    (∀ t u : WhoWhatWhere, t.compare u = true ↔
      (t.character.card.name = u.character.card.name ∧
       t.weapon.card.name = u.weapon.card.name ∧
       t.room.card.name = u.room.card.name)) := by
  constructor
  · intro t
    simp [WhoWhatWhere.compare, Card.compare]
  · intro t u
    simp [WhoWhatWhere.compare, Card.compare]
    tauto

/-- C9: the game-state snapshot is independent of the case file and of the detective
sheets: overwriting both with arbitrary values leaves `gameStateJSON` unchanged for
every requesting player, so two games identical except for those private components
produce identical snapshots (the snapshot reads only the sequence, status, host
identity and per-player public fields). -/
theorem gameStateJSON_ignores_private_state :
    ∀ (g : Game) (cf : WhoWhatWhere) (ss : List DetectiveSheet) (player : Player),
      Game.gameStateJSON { g with caseFile := cf, sheets := ss } player =
        Game.gameStateJSON g player := by
  intro g cf ss player
  rfl

/-- C10: an action that is none of the three known variants (embedded by
`ActionData.otherAction`, e.g. an instance of the abstract `Action` base class) is
always rejected: the ordering pre-check's final fall-through returns false for it on
every turn, and `takeAction` returns the error message with the game state unchanged,
never reaching `performAction`. -/
theorem takeAction_unknown_kind_rejected :
    ∀ (g : Game) (t : Turn),
      Turn.validate_action t ActionData.otherAction = false ∧
      Turn.takeAction g t ActionData.otherAction =
        some (some "Unable to perform action", g) := by
  intro g t
  exact ⟨rfl, by simp [Turn.takeAction, Turn.validate_action]⟩

/-- The spec's turn-ordering transition rules (§4.3), phrased over the actions the
turn already contained before the current attempt: a Move only on an action-free
turn; a Suggestion only when no Suggestion and no Accusation exists yet; an
Accusation only when no Accusation exists yet; nothing else is admitted. -/
def orderingRules (prior : List ActionData) : ActionData → Bool
  | .move _ _ => prior.isEmpty
  | .suggestion _ =>
      !(prior.any (fun a => a.isSuggestionA)) && !(prior.any (fun a => a.isAccusationA))
  | .accusation _ => !(prior.any (fun a => a.isAccusationA))
  | .otherAction => false

/-- Helper: a list has a positive `countP` exactly when `any` holds. -/
theorem countP_pos_iff_any {α : Type} (l : List α) (q : α → Bool) :
    (0 < l.countP q) ↔ l.any q = true := by
  rw [List.countP_pos_iff, List.any_eq_true]

/-- C1: on a turn whose recorded actions are the prior actions followed by the
attempted action (the engine's `createSuggestion`/`createAccusation` save the
attempted action against the turn before `takeAction` runs), the pre-check
`Turn.__validate_action` admits the attempt exactly per the spec's transition rules
(`orderingRules` over the prior actions), and whenever the rules reject it,
`takeAction` returns the "Unable to perform action" error with the game state
unchanged and `performAction` never invoked. -/
theorem takeAction_ordering_precheck (g : Game) (p : Player) (prior : List ActionData)
    (a : ActionData) :
    Turn.validate_action { player := p, actions := prior ++ [a] } a = orderingRules prior a ∧
    (orderingRules prior a = false →
      Turn.takeAction g { player := p, actions := prior ++ [a] } a =
        some (some "Unable to perform action", g)) := by
  have hmain :
      Turn.validate_action { player := p, actions := prior ++ [a] } a = orderingRules prior a := by
    cases a with
    | move f s =>
        cases prior with
        | nil => rfl
        | cons x xs =>
            simp [Turn.validate_action, orderingRules, List.length_append]
    | suggestion w =>
        have h1 : (prior ++ [ActionData.suggestion w]).countP (fun a => a.isSuggestionA) =
            prior.countP (fun a => a.isSuggestionA) + 1 := by
          simp [List.countP_append, ActionData.isSuggestionA]
        have h2 : (prior ++ [ActionData.suggestion w]).countP (fun a => a.isAccusationA) =
            prior.countP (fun a => a.isAccusationA) := by
          simp [List.countP_append, ActionData.isAccusationA]
        show (if _ > 1 then false else if _ > 0 then false else true) = _
        rw [h1, h2]
        rcases hs : prior.any (fun a => a.isSuggestionA) with _ | _ <;>
          rcases ha : prior.any (fun a => a.isAccusationA) with _ | _ <;>
          simp only [orderingRules, hs, ha, Bool.not_true, Bool.not_false, Bool.and_self,
            Bool.false_and, Bool.and_false, Bool.true_and, Bool.and_true] <;>
          [skip; skip; skip; skip] <;> first
        | (have hs0 : prior.countP (fun a => a.isSuggestionA) = 0 := by
             by_contra hne
             have := (countP_pos_iff_any prior (fun a => a.isSuggestionA)).mp (by omega)
             rw [this] at hs; cases hs
           have ha0 : prior.countP (fun a => a.isAccusationA) = 0 := by
             by_contra hne
             have := (countP_pos_iff_any prior (fun a => a.isAccusationA)).mp (by omega)
             rw [this] at ha; cases ha
           simp [hs0, ha0])
        | (have hsp : 0 < prior.countP (fun a => a.isSuggestionA) :=
             (countP_pos_iff_any prior (fun a => a.isSuggestionA)).mpr hs
           have : prior.countP (fun a => a.isSuggestionA) + 1 > 1 := by omega
           simp [this])
        | (have hap : 0 < prior.countP (fun a => a.isAccusationA) :=
             (countP_pos_iff_any prior (fun a => a.isAccusationA)).mpr ha
           by_cases h : prior.countP (fun a => a.isSuggestionA) + 1 > 1 <;> simp [h, hap])
    | accusation w =>
        have h1 : (prior ++ [ActionData.accusation w]).countP (fun a => a.isAccusationA) =
            prior.countP (fun a => a.isAccusationA) + 1 := by
          simp [List.countP_append, ActionData.isAccusationA]
        show (if _ > 1 then false else true) = _
        rw [h1]
        rcases ha : prior.any (fun a => a.isAccusationA) with _ | _ <;>
          simp only [orderingRules, ha, Bool.not_true, Bool.not_false]
        · have ha0 : prior.countP (fun a => a.isAccusationA) = 0 := by
            by_contra hne
            have := (countP_pos_iff_any prior (fun a => a.isAccusationA)).mp (by omega)
            rw [this] at ha; cases ha
          simp [ha0]
        · have hap : 0 < prior.countP (fun a => a.isAccusationA) :=
            (countP_pos_iff_any prior (fun a => a.isAccusationA)).mpr ha
          have : prior.countP (fun a => a.isAccusationA) + 1 > 1 := by omega
          simp [this]
    | otherAction => rfl
  refine ⟨hmain, fun h => ?_⟩
  have hv : Turn.validate_action { player := p, actions := prior ++ [a] } a = false := by
    rw [hmain, h]
  simp [Turn.takeAction, hv]

/-- C1 witness: a second Suggestion on a turn that already holds one is rejected with
the error and an unchanged game. -/
theorem takeAction_ordering_precheck_witness :
    Turn.takeAction sampleGame
        { player := pHost,
          actions := [ActionData.suggestion wwwGreen, ActionData.suggestion wwwGreen] }
        (ActionData.suggestion wwwGreen) =
      some (some "Unable to perform action", sampleGame) :=
  (takeAction_ordering_precheck sampleGame pHost [ActionData.suggestion wwwGreen]
    (ActionData.suggestion wwwGreen)).2 (by decide)

/-- The outcome required of an executed accusation (C2): on a case-file match the
game completes with the accuser `WON` and everyone else `LOST`; on a mismatch only
the accuser's row changes, to `LOST`, and the status stays `STARTED`. -/
def accusationConcl (g : Game) (t : Turn) (www : WhoWhatWhere) : Prop :=
  ∃ g2, Action.performAction g t (ActionData.accusation www) = some g2 ∧
    (g.caseFile.compare www = true →
      g2.status = COMPLETE ∧
      List.Forall₂ (fun p q =>
        (p.id = t.player.id → q.gameResult = WON) ∧
        (p.id ≠ t.player.id → q.gameResult = LOST)) g.players g2.players ∧
      ∃ q ∈ g2.players, q.id = t.player.id ∧ q.gameResult = WON) ∧
    (g.caseFile.compare www = false →
      g2.status = STARTED ∧
      List.Forall₂ (fun p q =>
        (p.id = t.player.id → q.gameResult = LOST) ∧
        (p.id ≠ t.player.id → q = p)) g.players g2.players ∧
      ∃ q ∈ g2.players, q.id = t.player.id ∧ q.gameResult = LOST)

/-- Helper: `Forall₂` between a list and its image under a map reduces to a pointwise
statement. -/
theorem forall₂_map_self {α β : Type} (R : α → β → Prop) (l : List α) (f : α → β)
    (h : ∀ x ∈ l, R x (f x)) : List.Forall₂ R l (l.map f) := by
  rw [List.forall₂_map_right_iff, List.forall₂_same]
  exact h

/-- C2: executing an accusation compares its triple against the case file; on a match
`endGame` marks the accuser `WON`, every other player of the game `LOST`, and sets the
status to `COMPLETE`; on a mismatch `loseGame` marks only the accuser `LOST`, leaves
every other player row untouched, and the status stays `STARTED`. -/
theorem accusation_outcome (g : Game) (t : Turn) (www : WhoWhatWhere)
    (hstat : g.status = STARTED) (hmem : t.player ∈ g.players) :
    accusationConcl g t www := by
  by_cases hc : g.caseFile.compare www = true
  · refine ⟨g.endGame t.player, ?_, ?_, ?_⟩
    · simp [Action.performAction, Accusation.performAction, Game.isAccusationCorrect, hc]
    · intro _
      refine ⟨rfl, ?_, ?_⟩
      · exact forall₂_map_self _ _ _ (by
          intro x _
          constructor
          · intro hx; simp [hx]
          · intro hx; simp [hx])
      · refine ⟨{ t.player with gameResult := WON }, ?_, rfl, rfl⟩
        show _ ∈ (Game.endGame g t.player).players
        simp only [Game.endGame, Game.registerGameUpdate, List.mem_map]
        exact ⟨t.player, hmem, by simp⟩
    · intro hfalse; rw [hc] at hfalse; cases hfalse
  · have hc2 : g.caseFile.compare www = false := by
      rcases h : g.caseFile.compare www with _ | _
      · rfl
      · exact absurd h hc
    refine ⟨g.loseGame t.player, ?_, ?_, ?_⟩
    · simp [Action.performAction, Accusation.performAction, Game.isAccusationCorrect, hc2]
    · intro htrue; rw [hc2] at htrue; cases htrue
    · intro _
      refine ⟨hstat, ?_, ?_⟩
      · exact forall₂_map_self _ _ _ (by
          intro x _
          constructor
          · intro hx; simp [hx]
          · intro hx; simp [hx])
      · refine ⟨{ t.player with gameResult := LOST }, ?_, rfl, rfl⟩
        show _ ∈ (Game.loseGame g t.player).players
        simp only [Game.loseGame, Game.registerGameUpdate, List.mem_map]
        exact ⟨t.player, hmem, by simp⟩

/-- C2 witness: the host accuses with the (correct) sample case-file triple on the
sample game. -/
theorem accusation_outcome_witness :
    (sampleGame.status = STARTED ∧ pHost ∈ sampleGame.players) ∧
      accusationConcl sampleGame { player := pHost, actions := [ActionData.accusation wwwGreen] }
        wwwGreen :=
  ⟨⟨by decide, by decide⟩,
    accusation_outcome sampleGame { player := pHost, actions := [ActionData.accusation wwwGreen] }
      wwwGreen (by decide) (by decide)⟩

/-- The behaviour required of a suggestion (C6): `validate` holds exactly when the
suggested room is the collection holding the suggesting player's current space, and
execution teleports the suggested character's player onto the suggested room's space,
leaving every other player row untouched. -/
def suggestionConcl (g : Game) (t : Turn) (www : WhoWhatWhere) (accused : Player)
    (roomSpace : Space) : Prop :=
  (Action.validate t (ActionData.suggestion www) = some true ↔
    www.room.id = t.player.currentSpace.spaceCollector) ∧
  roomSpace.spaceCollector = www.room.id ∧
  ∃ g2, Action.performAction g t (ActionData.suggestion www) = some g2 ∧
    List.Forall₂ (fun p q =>
      (p.id = accused.id → q = { p with currentSpace := roomSpace }) ∧
      (p.id ≠ accused.id → q = p)) g.players g2.players

/-- C6: on a started game where exactly one player holds the suggested character and
the suggested room contains exactly one space (Django `get` semantics),
`Suggestion.validate` is true iff the suggested room is the one containing the
suggesting player's current space, and `Suggestion.performAction` moves the suggested
character's player onto that room's space, changing no other player. -/
theorem suggestion_semantics (g : Game) (t : Turn) (www : WhoWhatWhere) (accused : Player)
    (roomSpace : Space) (_hstat : g.status = STARTED)
    (hp : g.players.filter
      (fun p => p.character.card.card_id == www.character.card.card_id) = [accused])
    (hs : g.spaces.filter (fun s => s.spaceCollector == www.room.id) = [roomSpace]) :
    suggestionConcl g t www accused roomSpace := by
  refine ⟨?_, ?_, ?_⟩
  · simp [Action.validate, Suggestion.validate]
  · have : roomSpace ∈ g.spaces.filter (fun s => s.spaceCollector == www.room.id) := by
      rw [hs]; exact List.mem_singleton.mpr rfl
    have := List.of_mem_filter this
    exact beq_iff_eq.mp this
  · refine ⟨{ g with players := g.players.map (fun p =>
        if p.id = accused.id then { p with currentSpace := roomSpace } else p) }, ?_, ?_⟩
    · show Suggestion.performAction g www = _
      rw [Suggestion.performAction, getUnique, hp, getUnique, hs]
      rfl
    · exact forall₂_map_self _ _ _ (by
        intro x _
        constructor
        · intro hx; simp [hx]
        · intro hx; simp [hx])

/-- C6 witness: the guest suggests Scarlet with the pipe in the study on the sample
game; the unique Scarlet player is the guest and the unique study space is `spB`. -/
theorem suggestion_semantics_witness :
    (sampleGame.status = STARTED ∧
      sampleGame.players.filter
        (fun p => p.character.card.card_id == wwwScarlet.character.card.card_id) = [pGuest] ∧
      sampleGame.spaces.filter (fun s => s.spaceCollector == wwwScarlet.room.id) = [spB]) ∧
    suggestionConcl sampleGame { player := pGuest, actions := [ActionData.suggestion wwwScarlet] }
      wwwScarlet pGuest spB :=
  ⟨⟨by decide, by decide, by decide⟩,
    suggestion_semantics sampleGame
      { player := pGuest, actions := [ActionData.suggestion wwwScarlet] }
      wwwScarlet pGuest spB (by decide) (by decide) (by decide)⟩

/-- Sequence-counter behaviour of one completed mutating operation (the amended C5):
the counter never decreases; initialize, join and start strictly increase it; ending a
turn leaves it unchanged; an executed Move or Suggestion leaves it unchanged; and an
accusation increments it exactly when the ordering pre-check lets it execute. -/
def seqSpec (g g2 : Game) (op : MutOp) : Prop :=
  g.currentSequence ≤ g2.currentSequence ∧
  (∀ host cf, op = MutOp.init host cf → g.currentSequence < g2.currentSequence) ∧
  (∀ p allCards, op = MutOp.join p allCards → g.currentSequence < g2.currentSequence) ∧
  (∀ user sh ch, op = MutOp.start user sh ch → g.currentSequence < g2.currentSequence) ∧
  (op = MutOp.turnEnd → g2.currentSequence = g.currentSequence) ∧
  (∀ t f s, op = MutOp.act t (ActionData.move f s) →
    g2.currentSequence = g.currentSequence) ∧
  (∀ t w, op = MutOp.act t (ActionData.suggestion w) →
    g2.currentSequence = g.currentSequence) ∧
  (∀ t w, op = MutOp.act t (ActionData.accusation w) →
    (Turn.validate_action t (ActionData.accusation w) = true →
      g2.currentSequence = g.currentSequence + 1) ∧
    (Turn.validate_action t (ActionData.accusation w) = false →
      g2.currentSequence = g.currentSequence))

/-- C5 (amended): every completed mutating operation obeys `seqSpec` — the counter
never decreases, the operations that call `registerGameUpdate` (initialize, join,
start, and an executed accusation through `endGame`/`loseGame`) strictly increase it,
while `endTurn` and executed Move/Suggestion actions leave it unchanged. -/
theorem sequence_ops_monotone (g : Game) (op : MutOp) (g2 : Game)
    (h : applyOp g op = some g2) : seqSpec g g2 op := by
  cases op with
  | init host cf =>
      simp only [applyOp, Option.some.injEq] at h
      subst h
      refine ⟨?_, ?_, ?_, ?_, ?_, ?_, ?_, ?_⟩ <;> intros <;>
        simp_all [Game.initializeGame, Game.registerGameUpdate]
  | join p allCards =>
      simp only [applyOp] at h
      unfold Game.addPlayer at h
      split at h
      · cases h
      · split at h
        · cases h
        · simp only [Except.toOption, Option.some.injEq] at h
          subst h
          refine ⟨?_, ?_, ?_, ?_, ?_, ?_, ?_, ?_⟩ <;> intros <;>
            simp_all [Game.registerGameUpdate]
  | start user sh ch =>
      simp only [applyOp] at h
      unfold Game.startGame at h
      split at h
      · cases h
      · split at h
        · cases h
        · split at h
          · cases h
          · split at h
            · cases h
            · simp only [Except.toOption, Option.some.injEq] at h
              subst h
              refine ⟨?_, ?_, ?_, ?_, ?_, ?_, ?_, ?_⟩ <;> intros <;>
                simp_all [Game.registerGameUpdate]
  | turnEnd =>
      simp only [applyOp] at h
      unfold Turn.endTurn at h
      split at h
      · cases h
      · split at h
        · cases h
        · split at h
          · cases h
          · simp only [Option.some.injEq] at h
            subst h
            refine ⟨?_, ?_, ?_, ?_, ?_, ?_, ?_, ?_⟩ <;> intros <;> simp_all
  | act t a =>
      simp only [applyOp] at h
      rcases hva : Turn.validate_action t a with _ | _
      · rw [Turn.takeAction, hva, if_pos (by simp)] at h
        simp only [Option.map_some', Option.some.injEq] at h
        subst h
        refine ⟨le_refl _, ?_, ?_, ?_, ?_, ?_, ?_, ?_⟩ <;> intros <;> simp_all
      · rw [Turn.takeAction, hva, if_neg (by simp)] at h
        cases a with
        | move f s =>
            simp only [Action.validate] at h
            split at h <;>
              simp only [Action.performAction, Move.performAction, Option.map_some',
                Option.some.injEq] at h <;>
              (subst h
               refine ⟨le_refl _, ?_, ?_, ?_, ?_, ?_, ?_, ?_⟩ <;> intros <;> simp_all)
        | suggestion w =>
            simp only [Action.validate] at h
            split at h
            · simp only [Action.performAction] at h
              unfold Suggestion.performAction at h
              cases hap : getUnique g.players
                  (fun p => p.character.card.card_id == w.character.card.card_id) with
              | none => rw [hap] at h; cases h
              | some accusedPlayer =>
                  rw [hap] at h
                  cases has : getUnique g.spaces
                      (fun s => s.spaceCollector == w.room.id) with
                  | none => rw [has] at h; cases h
                  | some accusedSpace =>
                      rw [has] at h
                      simp only [Option.bind_eq_bind, Option.some_bind, Option.map_some',
                        Option.some.injEq] at h
                      subst h
                      refine ⟨le_refl _, ?_, ?_, ?_, ?_, ?_, ?_, ?_⟩ <;> intros <;> simp_all
            · simp only [Option.map_some', Option.some.injEq] at h
              subst h
              refine ⟨le_refl _, ?_, ?_, ?_, ?_, ?_, ?_, ?_⟩ <;> intros <;> simp_all
        | accusation w =>
            simp only [Action.validate, Accusation.validate] at h
            rw [if_pos trivial] at h
            simp only [Action.performAction, Option.map_some', Option.some.injEq] at h
            subst h
            have hseq : (Accusation.performAction g t.player w).currentSequence =
                g.currentSequence + 1 := by
              unfold Accusation.performAction
              split <;> simp [Game.endGame, Game.loseGame, Game.registerGameUpdate]
            refine ⟨by omega, ?_, ?_, ?_, ?_, ?_, ?_, ?_⟩ <;> intros <;> simp_all
        | otherAction =>
            simp only [Action.validate] at h
            cases h

/-- C5 witness for the amended claim: the `endTurn` run on the sample game satisfies
`seqSpec` (in particular it completes and does not decrease the counter). -/
theorem sequence_ops_monotone_witness :
    seqSpec sampleGame
      { sampleGame with currentTurn := some { player := pGuest, actions := [] } }
      MutOp.turnEnd :=
  sequence_ops_monotone sampleGame MutOp.turnEnd
    { sampleGame with currentTurn := some { player := pGuest, actions := [] } } (by decide)

/-- C5 counterexample to the original claim: `endTurn` on the sample game completes
(rotating the turn to the guest) but leaves `currentSequence` at 5 — not strictly
greater than before — because `Turn.endTurn` never calls `registerGameUpdate`. -/
theorem endTurn_keeps_sequence_cex :
    applyOp sampleGame MutOp.turnEnd =
      some { sampleGame with currentTurn := some { player := pGuest, actions := [] } } ∧
    ¬ (sampleGame.currentSequence <
        ({ sampleGame with
            currentTurn := some { player := pGuest, actions := [] } } : Game).currentSequence) := by
  decide

/-! Counting infrastructure for the deal loop (C4). -/

/-- Helper: `modifyAt` preserves length. -/
theorem length_modifyAt {α : Type} (l : List α) (n : Nat) (f : α → α) :
    (modifyAt l n f).length = l.length := by
  induction l generalizing n with
  | nil => rfl
  | cons x xs ih =>
      cases n with
      | zero => rfl
      | succ m => simp [modifyAt, ih]

/-- Helper: indexing into `modifyAt`. -/
theorem getElem?_modifyAt {α : Type} (l : List α) (n j : Nat) (f : α → α) :
    (modifyAt l n f)[j]? = if j = n then (l[j]?).map f else l[j]? := by
  induction l generalizing n j with
  | nil => simp [modifyAt]
  | cons x xs ih =>
      cases n with
      | zero =>
          cases j with
          | zero => simp [modifyAt]
          | succ j2 => simp [modifyAt]
      | succ m =>
          cases j with
          | zero => simp [modifyAt]
          | succ j2 => simpa [modifyAt] using ih m j2

/-- The number of naturals `k < m` with `k % res = j` (the loop indices the deal hands
to sheet `j`). -/
def cnt : Nat → Nat → Nat → Nat
  | 0, _, _ => 0
  | m + 1, res, j => cnt m res j + (if m % res = j then 1 else 0)

/-- Helper: `cnt` is monotone in its first argument. -/
theorem cnt_le_add (m k res j : Nat) : cnt m res j ≤ cnt (m + k) res j := by
  induction k with
  | zero => exact le_refl _
  | succ k2 ih =>
      have : cnt (m + (k2 + 1)) res j = cnt (m + k2) res j + (if (m + k2) % res = j then 1 else 0) := rfl
      rw [this]
      split <;> omega

/-- Helper: closed form of `cnt` below a bound `m`, for a residue `j < res`. -/
theorem cnt_closed (res j : Nat) (hj : j < res) (m : Nat) :
    cnt m res j = m / res + (if j < m % res then 1 else 0) := by
  have hres : 0 < res := lt_of_le_of_lt (Nat.zero_le j) hj
  induction m with
  | zero => simp [cnt, Nat.zero_div, Nat.zero_mod]
  | succ m ih =>
      have hr : m % res < res := Nat.mod_lt _ hres
      have hm : res * (m / res) + m % res = m := Nat.div_add_mod m res
      by_cases hrN : m % res + 1 = res
      · have h1 : m + 1 = res * (m / res + 1) := by
          rw [Nat.mul_succ]
          omega
        have hd : (m + 1) / res = m / res + 1 := by
          rw [h1, Nat.mul_div_cancel_left _ hres]
        have hmo : (m + 1) % res = 0 := by
          rw [h1, Nat.mul_mod_right]
        show cnt m res j + (if m % res = j then 1 else 0) = _
        rw [ih, hd, hmo]
        split_ifs <;> omega
      · have hrlt : m % res + 1 < res := by omega
        have h1 : m + 1 = (m % res + 1) + res * (m / res) := by omega
        have hd : (m + 1) / res = m / res := by
          rw [h1, Nat.add_mul_div_left _ _ hres, Nat.div_eq_of_lt hrlt, Nat.zero_add]
        have hmo : (m + 1) % res = m % res + 1 := by
          rw [h1, Nat.add_mul_mod_self_left, Nat.mod_eq_of_lt hrlt]
        show cnt m res j + (if m % res = j then 1 else 0) = _
        rw [ih, hd, hmo]
        split_ifs <;> omega

/-- Helper: the length of sheet `j`'s dealt-card list, as a difference of counts. -/
theorem dealtTo_length_cnt (res j : Nat) (L : List Card) (i : Nat) :
    (dealtTo res L i j).length = cnt (i + L.length) res j - cnt i res j := by
  induction L generalizing i with
  | nil => simp [dealtTo]
  | cons c rest ih =>
      have hstep : cnt (i + 1) res j = cnt i res j + (if i % res = j then 1 else 0) := rfl
      have hmono : cnt (i + 1) res j ≤ cnt (i + 1 + rest.length) res j := cnt_le_add _ _ _ _
      have harith : i + (rest.length + 1) = i + 1 + rest.length := by omega
      show ((if i % res = j then [c] else []) ++ dealtTo res rest (i + 1) j).length = _
      rw [List.length_append, ih, List.length_cons, harith]
      by_cases hij : i % res = j
      · rw [if_pos hij] at hstep
        rw [if_pos hij]
        simp only [List.length_singleton]
        omega
      · rw [if_neg hij] at hstep
        rw [if_neg hij]
        simp only [List.length_nil]
        omega

/-- Helper: a card dealt to some sheet comes from the loop's card list. -/
theorem dealtTo_subset (res j : Nat) (L : List Card) (i : Nat) (c : Card)
    (hc : c ∈ dealtTo res L i j) : c ∈ L := by
  induction L generalizing i with
  | nil => simp [dealtTo] at hc
  | cons d rest ih =>
      show c ∈ d :: rest
      rcases List.mem_append.mp hc with h1 | h2
      · by_cases hij : i % res = j
        · rw [if_pos hij] at h1
          rcases List.mem_singleton.mp h1 with rfl
          exact List.mem_cons_self _ _
        · rw [if_neg hij] at h1
          cases h1
      · exact List.mem_cons_of_mem _ (ih _ h2)

/-- Helper: the dealt-card lists of the `res` sheets partition the card list as a
multiset — no card is lost or duplicated by the round-robin. -/
theorem dealtTo_multiset (res : Nat) (hres : 0 < res) (L : List Card) (i : Nat) :
    (∑ j ∈ Finset.range res, ((dealtTo res L i j : List Card) : Multiset Card)) =
      (L : Multiset Card) := by
  induction L generalizing i with
  | nil =>
      simp [dealtTo]
  | cons c rest ih =>
      have hterm : ∀ j, ((dealtTo res (c :: rest) i j : List Card) : Multiset Card) =
          (if i % res = j then ({c} : Multiset Card) else 0) +
            ((dealtTo res rest (i + 1) j : List Card) : Multiset Card) := by
        intro j
        by_cases hij : i % res = j <;>
          simp [dealtTo, hij]
      rw [Finset.sum_congr rfl (fun j _ => hterm j), Finset.sum_add_distrib, ih]
      have hsingle : (∑ j ∈ Finset.range res,
          (if i % res = j then ({c} : Multiset Card) else 0)) = ({c} : Multiset Card) := by
        rw [Finset.sum_ite_eq]
        simp [Nat.mod_lt i hres]
      rw [hsingle, Multiset.singleton_add, Multiset.cons_coe]

/-- Helper: the deal loop preserves the number of sheets. -/
theorem dealLoop_length (L : List Card) (S : List DetectiveSheet) (i : Nat) :
    (dealLoop S L i).length = S.length := by
  induction L generalizing S i with
  | nil => rfl
  | cons c rest ih =>
      show (dealLoop (modifyAt S (i % S.length) _) rest (i + 1)).length = S.length
      rw [ih, length_modifyAt]

/-- Helper: sheet `j` after the whole deal loop is sheet `j` before it, with
`makeNote c true true` folded over exactly the cards `dealtTo` assigns to `j`. -/
theorem dealLoop_getElem? (L : List Card) (S : List DetectiveSheet) (i j : Nat) :
    (dealLoop S L i)[j]? = (S[j]?).map (fun ds =>
      (dealtTo S.length L i j).foldl (fun d c => d.makeNote c true true false) ds) := by
  induction L generalizing S i with
  | nil =>
      show S[j]? = (S[j]?).map (fun ds => ds)
      cases S[j]? <;> rfl
  | cons c rest ih =>
      show (dealLoop (modifyAt S (i % S.length) (fun ds => ds.makeNote c true true false))
          rest (i + 1))[j]? = _
      rw [ih]
      rw [length_modifyAt, getElem?_modifyAt]
      by_cases hij : j = i % S.length
      · have hij2 : i % S.length = j := hij.symm
        rw [if_pos hij]
        show (Option.map _ (Option.map _ S[j]?)) = _
        rw [Option.map_map]
        show Option.map _ S[j]? = Option.map _ S[j]?
        apply congrArg (fun f => Option.map f S[j]?)
        funext ds
        show (dealtTo S.length rest (i + 1) j).foldl _ (ds.makeNote c true true false) = _
        rw [show dealtTo S.length (c :: rest) i j = c :: dealtTo S.length rest (i + 1) j by
          show (if i % S.length = j then [c] else []) ++ _ = _
          rw [if_pos hij2]
          rfl]
        rfl
      · have hij2 : ¬ i % S.length = j := fun h => hij h.symm
        rw [if_neg hij]
        apply congrArg (fun f => Option.map f S[j]?)
        funext ds
        rw [show dealtTo S.length (c :: rest) i j = dealtTo S.length rest (i + 1) j by
          show (if i % S.length = j then [c] else []) ++ _ = _
          rw [if_neg hij2]
          rfl]

/-- Helper: folding `makeNote _ true true false` over a card list sets exactly the
items whose `card_id` occurs in that list to checked/dealt, and leaves the rest
untouched. -/
theorem foldl_makeNote_items (D : List Card) (ds : DetectiveSheet) :
    (D.foldl (fun d c => d.makeNote c true true false) ds).items =
      ds.items.map (fun si =>
        if D.any (fun d => si.card.card_id == d.card_id) then
          { si with checked := true, initiallyDealt := true, manuallyChecked := false }
        else si) := by
  induction D generalizing ds with
  | nil =>
      show ds.items = ds.items.map (fun si => if false = true then _ else si)
      simp
  | cons c D2 ih =>
      show (D2.foldl _ (ds.makeNote c true true false)).items = _
      rw [ih]
      show (ds.items.map _).map _ = _
      rw [List.map_map]
      apply List.map_congr_left
      intro si _
      show (fun s2 =>
          if D2.any (fun d => s2.card.card_id == d.card_id) then
            { s2 with checked := true, initiallyDealt := true, manuallyChecked := false }
          else s2)
        (if si.card.card_id = c.card_id then
          { si with checked := true, initiallyDealt := true, manuallyChecked := false }
        else si) = _
      by_cases hc : si.card.card_id = c.card_id
      · rw [if_pos hc]
        have hany : (c :: D2).any (fun d => si.card.card_id == d.card_id) = true := by
          simp [hc]
        rw [hany]
        simp only [if_true]
        split <;> rfl
      · rw [if_neg hc]
        have hany : (c :: D2).any (fun d => si.card.card_id == d.card_id) =
            D2.any (fun d => si.card.card_id == d.card_id) := by
          simp [List.any_cons, hc]
        rw [hany]

/-- Helper: when `M` is not an exact multiple of `res`, the ceiling `(M + res - 1)/res`
is one more than the floor. -/
theorem ceil_div_shift (M res : Nat) (hres : 0 < res) (hpos : 0 < M % res) :
    (M + res - 1) / res = M / res + 1 := by
  have hm : res * (M / res) + M % res = M := Nat.div_add_mod M res
  have hr : M % res < res := Nat.mod_lt _ hres
  set q := M / res with hq
  set r := M % res with hrdef
  have h1 : M + res - 1 = (r - 1) + res * (q + 1) := by
    rw [Nat.mul_succ]
    omega
  rw [h1, Nat.add_mul_div_left _ _ hres, Nat.div_eq_of_lt (by omega), Nat.zero_add]

/-- Helper: each sheet's dealt-card count is the floor or the ceiling of the even
share `M / res`. -/
theorem dealtTo_length_floor_ceil (res j : Nat) (hj : j < res) (L : List Card) :
    (dealtTo res L 0 j).length = L.length / res ∨
    (dealtTo res L 0 j).length = (L.length + res - 1) / res := by
  have hres : 0 < res := lt_of_le_of_lt (Nat.zero_le j) hj
  have hlen : (dealtTo res L 0 j).length = cnt L.length res j := by
    rw [dealtTo_length_cnt]
    show cnt (0 + L.length) res j - cnt 0 res j = _
    rw [Nat.zero_add]
    rfl
  rw [hlen, cnt_closed res j hj]
  by_cases hlt : j < L.length % res
  · right
    rw [if_pos hlt, ceil_div_shift L.length res hres (lt_of_le_of_lt (Nat.zero_le j) hlt)]
  · left
    rw [if_neg hlt, Nat.add_zero]


/-- Helper: looking a registry card up in the default sheet transformed by any
card-preserving marking function finds the marked default item of a card with that
`card_id`. -/
theorem getItem_map_marked (F : SheetItem → SheetItem) (cards : List Card) (c : Card)
    (hFcard : ∀ si, (F si).card = si.card)
    (hcid : c.card_id ∈ cards.map Card.card_id) :
    ∃ c0, c0.card_id = c.card_id ∧
      getItem ((DetectiveSheet.addDefaultSheets cards).map F) c.card_id =
        some (F { card := c0, checked := false, initiallyDealt := false,
                  manuallyChecked := false }) := by
  induction cards with
  | nil => simp at hcid
  | cons x xs ih =>
      by_cases hx : x.card_id = c.card_id
      · refine ⟨x, hx, ?_⟩
        have hpos : ((F (SheetItem.mk x false false false)).card.card_id == c.card_id) = true := by
          rw [hFcard]
          exact beq_iff_eq.mpr hx
        exact List.find?_cons_of_pos _ hpos
      · have htail : c.card_id ∈ xs.map Card.card_id := by
          rcases List.mem_cons.mp hcid with heq | hmem
          · exact absurd heq.symm hx
          · exact hmem
        obtain ⟨c0, hc0, hfound⟩ := ih htail
        refine ⟨c0, hc0, ?_⟩
        have hneg : ¬ (((F (SheetItem.mk x false false false)).card.card_id == c.card_id) = true) := by
          rw [hFcard]
          simp [hx]
        show List.find? _ (_ :: _) = _
        rw [@List.find?_cons_of_neg _ (fun si => si.card.card_id == c.card_id)
          (F (SheetItem.mk x false false false)) _ hneg]
        exact hfound

/-- The outcome required of the deal phase of `startGame` (C4), with
`N = g.sheets.length` sheets and `M` non-case-file cards: the run succeeds, the sheet
count is preserved, sheet `j` receives `⌊M/N⌋` or `⌈M/N⌉` cards, each of its dealt
cards is marked checked and initially dealt on its sheet item, and the dealt lists
over all sheets are exactly the non-case-file cards as a multiset (no card dropped,
no card dealt twice). -/
def dealConcl (g : Game) (res : Except String Game) (shuffledCards allCards : List Card) : Prop :=
  ∃ g2, res = Except.ok g2 ∧
    g2.sheets.length = g.sheets.length ∧
    (∀ j, (hj : j < g.sheets.length) →
      ((dealtTo g.sheets.length shuffledCards 0 j).length =
          (nonCaseFileCards allCards g.caseFile).length / g.sheets.length ∨
        (dealtTo g.sheets.length shuffledCards 0 j).length =
          ((nonCaseFileCards allCards g.caseFile).length + g.sheets.length - 1) /
            g.sheets.length) ∧
      ∃ ds, g2.sheets[j]? = some ds ∧
        ∀ c ∈ dealtTo g.sheets.length shuffledCards 0 j,
          ∃ si, getItem ds.items c.card_id = some si ∧
            si.checked = true ∧ si.initiallyDealt = true) ∧
    (∑ j ∈ Finset.range g.sheets.length,
        ((dealtTo g.sheets.length shuffledCards 0 j : List Card) : Multiset Card)) =
      ((nonCaseFileCards allCards g.caseFile : List Card) : Multiset Card)

/-- C4: for a startable game with at least one detective sheet, all sheets freshly
initialised by `addDefaultSheets`, and the shuffled deck a permutation of the
non-case-file cards, the deal phase of `startGame` satisfies `dealConcl`: every sheet
receives `⌊M/N⌋` or `⌈M/N⌉` cards, each marked `checked = true` and
`initiallyDealt = true` on that sheet, and the dealt cards over all sheets are
exactly the non-case-file cards with no duplication. -/
theorem startGame_deal (g : Game) (user : Nat) (shuffledCards allCards : List Card)
    (allCharacters : List Character) (p0 : Player)
    (h0 : g.status = 0)
    (h2 : 2 ≤ g.players.length)
    (hhost : g.hostPlayer.user = some user)
    (hsheets : 0 < g.sheets.length)
    (hperm : shuffledCards.Perm (nonCaseFileCards allCards g.caseFile))
    (hitems : ∀ ds ∈ g.sheets, ds.items = DetectiveSheet.addDefaultSheets allCards)
    (hget : getUnique g.players (fun p => p.user == some user) = some p0) :
    dealConcl g (g.startGame user shuffledCards allCharacters) shuffledCards allCards := by
  have hMlen : shuffledCards.length = (nonCaseFileCards allCards g.caseFile).length :=
    hperm.length_eq
  have hnot2 : ¬ (g.players.length < 2) := by omega
  have hrun : g.startGame user shuffledCards allCharacters =
      Except.ok (Game.registerGameUpdate
        { g with
          status := STARTED,
          sheets := dealLoop g.sheets shuffledCards 0,
          players := g.players ++ (g.unusedCharacters allCharacters).map (fun c =>
            ({ id := 0, user := none, username := "", nonUserPlayer := true,
               currentSpace := c.defaultSpace, character := c,
               gameResult := NEITHER } : Player)),
          currentTurn := some { player := p0, actions := [] } }) := by
    rw [Game.startGame]
    rw [if_neg (by simp [h0]), if_neg hnot2, if_neg (by simp [hhost])]
    simp only [hget]
  refine ⟨_, hrun, ?_, ?_, ?_⟩
  · show (dealLoop g.sheets shuffledCards 0).length = g.sheets.length
    exact dealLoop_length _ _ _
  · intro j hj
    constructor
    · have hfl := dealtTo_length_floor_ceil g.sheets.length j hj shuffledCards
      rw [hMlen] at hfl
      exact hfl
    · have hsheet : (dealLoop g.sheets shuffledCards 0)[j]? =
          some ((dealtTo g.sheets.length shuffledCards 0 j).foldl
            (fun d c => d.makeNote c true true false) g.sheets[j]) := by
        rw [dealLoop_getElem?, List.getElem?_eq_getElem hj]
        rfl
      refine ⟨_, hsheet, ?_⟩
      intro c hc
      have hdsitems : g.sheets[j].items = DetectiveSheet.addDefaultSheets allCards :=
        hitems _ (List.getElem_mem hj)
      rw [foldl_makeNote_items, hdsitems]
      have hcall : c ∈ allCards := by
        have hmem1 : c ∈ shuffledCards := dealtTo_subset _ _ _ _ _ hc
        have hmem2 : c ∈ nonCaseFileCards allCards g.caseFile := hperm.subset hmem1
        exact List.mem_of_mem_filter hmem2
      have hcid : c.card_id ∈ allCards.map Card.card_id :=
        List.mem_map_of_mem Card.card_id hcall
      obtain ⟨c0, hc0id, hfound⟩ := getItem_map_marked
        (fun si =>
          if (dealtTo g.sheets.length shuffledCards 0 j).any
              (fun d => si.card.card_id == d.card_id) then
            { si with checked := true, initiallyDealt := true, manuallyChecked := false }
          else si)
        allCards c
        (by
          intro si
          dsimp only
          split <;> rfl)
        hcid
      have hany : (dealtTo g.sheets.length shuffledCards 0 j).any
          (fun d => c0.card_id == d.card_id) = true := by
        rw [List.any_eq_true]
        refine ⟨c, hc, ?_⟩
        rw [hc0id]
        exact beq_self_eq_true _
      refine ⟨SheetItem.mk c0 true true false, ?_, rfl, rfl⟩
      rw [hfound]
      show some (if (dealtTo g.sheets.length shuffledCards 0 j).any
          (fun d => c0.card_id == d.card_id) then
          SheetItem.mk c0 true true false else SheetItem.mk c0 false false false) = _
      rw [hany]
      rfl
  · rw [dealtTo_multiset g.sheets.length hsheets shuffledCards 0]
    exact Multiset.coe_eq_coe.mpr hperm

/-- The sample game rewound to before start: not started, sequence 1, no turn. -/
def gameNotStarted : Game :=
  { sampleGame with status := 0, currentSequence := 1, currentTurn := none }

/-- The sample character registry. -/
def sampleCharacters : List Character := [chGreen, chScarlet]

/-- C4 witness: starting the two-player sample game with the three non-case-file
cards (identity shuffle) satisfies every hypothesis of `startGame_deal` and hence its
deal conclusion. -/
theorem startGame_deal_witness :
    (gameNotStarted.status = 0 ∧ 2 ≤ gameNotStarted.players.length ∧
      gameNotStarted.hostPlayer.user = some 10 ∧ 0 < gameNotStarted.sheets.length ∧
      (nonCaseFileCards allSampleCards gameNotStarted.caseFile).Perm
        (nonCaseFileCards allSampleCards gameNotStarted.caseFile) ∧
      (∀ ds ∈ gameNotStarted.sheets,
        ds.items = DetectiveSheet.addDefaultSheets allSampleCards) ∧
      getUnique gameNotStarted.players (fun p => p.user == some 10) = some pHost) ∧
    dealConcl gameNotStarted
      (gameNotStarted.startGame 10 (nonCaseFileCards allSampleCards gameNotStarted.caseFile)
        sampleCharacters)
      (nonCaseFileCards allSampleCards gameNotStarted.caseFile) allSampleCards :=
  ⟨⟨rfl, by decide, rfl, by decide, List.Perm.refl _, by decide, by decide⟩,
    startGame_deal gameNotStarted 10 _ allSampleCards sampleCharacters pHost rfl (by decide)
      rfl (by decide) (List.Perm.refl _) (by decide) (by decide)⟩

end Clueless
